import Mathlib

/-!
Verification of the `backon` retry library core against its specification.

The first part is a shallow embedding of `src/backon/src/retry_core.rs`:
the default hooks, the `RetryConfig` aggregate and its `decide` method.
Rust's `Duration` is modelled as a natural number of nanoseconds, the
`Backoff` iterator bound as an explicit state type `σ` with a step
function, and the side effects of the `FnMut` hooks (`notify`) and the
backoff pull count as an observation trace recorded in the result of
`decide`.

The second part is a shallow embedding of the decision logic of the
`#[backon]` attribute in `src/backon-macros/src/lib.rs`: which operation
shapes are accepted at definition time and which are rejected with a
compile error. Token generation itself always succeeds in the source, so
a successful expansion is modelled as `Except.ok ()` and each rejection
as a distinct `MacroError` constructor carrying the meaning of the
source's error message.
-/

namespace Backon

/-- Rust `core::time::Duration`, modelled as nanoseconds. -/
abbrev Duration := Nat

/-- Rust `core::ops::ControlFlow<B, C>`. -/
inductive ControlFlow (β : Type) (γ : Type) where
  | Break : β → ControlFlow β γ
  | Continue : γ → ControlFlow β γ
  deriving DecidableEq, Repr

/-- `fn always_retry<E>(_: &E) -> bool { true }` -/
def always_retry {E : Type} (_ : E) : Bool := true

/-- `fn noop_notify<E>(_: &E, _: Duration) {}` -/
def noop_notify {E : Type} (_ : E) (_ : Duration) : Unit := ()

/-- `fn identity_adjust<E>(_: &E, dur: Option<Duration>) -> Option<Duration> { dur }` -/
def identity_adjust {E : Type} (_ : E) (dur : Option Duration) : Option Duration := dur

/-- `struct RetryConfig<B, Sleep, RetryFn, NotifyFn, AdjustFn>`.
The generic backoff `B : Backoff` is embedded as a state of type `σ`
together with the iterator step `next : σ → Option Duration × σ`;
`sleep` and `notify` are opaque side-effecting callbacks, so they are
carried as functions into `Unit` and their invocations are recorded in
the observation trace of `decide`. -/
structure RetryConfig (σ E : Type) where
  backoff : σ
  next : σ → Option Duration × σ
  sleep : Duration → Unit
  retryable : E → Bool
  notify : E → Duration → Unit
  adjust : E → Option Duration → Option Duration

/-- Result of one `RetryConfig::decide` call: the returned
`ControlFlow<(), Duration>` plus the observable effects — the advanced
backoff state, how many times `self.backoff.next()` was called, and the
arguments of every `(self.notify)(...)` invocation, in order. -/
structure DecideResult (σ E : Type) where
  verdict : ControlFlow Unit Duration
  backoff : σ
  pulls : Nat
  notified : List (E × Duration)

/-- `RetryConfig::decide` from `src/backon/src/retry_core.rs` lines 90–108. -/
def decide {σ E : Type} (cfg : RetryConfig σ E) (err : E) : DecideResult σ E :=
  if !(cfg.retryable err) then
    { verdict := ControlFlow.Break (), backoff := cfg.backoff, pulls := 0, notified := [] }
  else
    let candidate := (cfg.next cfg.backoff).1
    let advanced := (cfg.next cfg.backoff).2
    match cfg.adjust err candidate with
    | some dur =>
      let _ := cfg.notify err dur
      { verdict := ControlFlow.Continue dur, backoff := advanced, pulls := 1
        notified := [(err, dur)] }
    | none =>
      { verdict := ControlFlow.Break (), backoff := advanced, pulls := 1, notified := [] }

/-- Modelled from the spec: the execution driver loop of spec section 4.3
(the driver sources `retry.rs` / `blocking_retry.rs` are not under
`src/`; only `retry_core.rs` is). The wrapped operation is represented
by the list of outcomes its successive attempts would produce; the
inter-attempt sleeps are accumulated in a trace. Returns `none` when the
outcome list is exhausted before the loop terminates (the loop itself
has no attempt cap). -/
def runDriver {σ E A : Type} (cfg : RetryConfig σ E) :
    List (Except E A) → List Duration → Option (Except E A × List Duration)
  | [], _ => none
  | o :: rest, sleeps =>
    match o with
    | Except.ok v => some (Except.ok v, sleeps)
    | Except.error e =>
      let r := decide cfg e
      match r.verdict with
      | ControlFlow.Break _ => some (Except.error e, sleeps)
      | ControlFlow.Continue d =>
        let _ := cfg.sleep d
        runDriver { cfg with backoff := r.backoff } rest (sleeps ++ [d])

/-- A backoff source over a list of remaining delays: `next` yields the
head and drops it, and yields `none` once the list is exhausted
(used to instantiate witnesses). -/
def listNext : List Duration → Option Duration × List Duration
  | [] => (none, [])
  | d :: rest => (some d, rest)

/-- Witness configuration: predicate rejects everything. -/
def cfgReject : RetryConfig (List Duration) Nat :=
  { backoff := [5], next := listNext, sleep := fun _ => (),
    retryable := fun _ => false, notify := noop_notify, adjust := identity_adjust }

/-- Witness configuration: all defaults, backoff with one delay left. -/
def cfgDefault : RetryConfig (List Duration) Nat :=
  { backoff := [5], next := listNext, sleep := fun _ => (),
    retryable := always_retry, notify := noop_notify, adjust := identity_adjust }

/-- Witness configuration: adjust suppresses every delay. -/
def cfgSuppress : RetryConfig (List Duration) Nat :=
  { backoff := [5], next := listNext, sleep := fun _ => (),
    retryable := always_retry, notify := noop_notify, adjust := fun _ _ => none }

/-- Witness configuration: exhausted backoff, adjust synthesizes a delay
even from an absent candidate. -/
def cfgSynthesize : RetryConfig (List Duration) Nat :=
  { backoff := [], next := listNext, sleep := fun _ => (),
    retryable := always_retry, notify := noop_notify, adjust := fun _ _ => some 1 }

/-- Witness configuration: exhausted backoff, default hooks. -/
def cfgExhausted : RetryConfig (List Duration) Nat :=
  { backoff := [], next := listNext, sleep := fun _ => (),
    retryable := always_retry, notify := noop_notify, adjust := identity_adjust }

/-- C1: if the retryable predicate returns false on the error, `decide`
returns `Break` (Stop), the backoff source is not consulted (zero pulls,
state unchanged), and the driver surfaces the original error unchanged. -/
theorem decide_predicate_rejects {σ E A : Type} (cfg : RetryConfig σ E) (e : E)
    (h : cfg.retryable e = false) (rest : List (Except E A)) :
    (decide cfg e).verdict = ControlFlow.Break () ∧
    (decide cfg e).pulls = 0 ∧
    (decide cfg e).backoff = cfg.backoff ∧
    runDriver cfg (Except.error e :: rest) [] = some (Except.error e, []) := by
  simp [decide, runDriver, h]

/-- Witness for C1 at a concrete configuration and error. -/
theorem decide_predicate_rejects_w :
    (decide cfgReject 7).verdict = ControlFlow.Break () ∧
    (decide cfgReject 7).pulls = 0 ∧
    (decide cfgReject 7).backoff = cfgReject.backoff ∧
    runDriver cfgReject [(Except.error 7 : Except Nat Nat)] [] =
      some (Except.error 7, []) :=
  @decide_predicate_rejects (List Duration) Nat Nat cfgReject 7 rfl []

/-- C2: if the retryable predicate accepts the error, `decide` pulls
exactly one candidate from the backoff source, and the result of
`adjust err candidate` determines the outcome: `some d` yields one
`notify (err, d)` invocation and `Continue d`; `none` yields `Break`. -/
theorem decide_predicate_accepts {σ E : Type} (cfg : RetryConfig σ E) (e : E)
    (h : cfg.retryable e = true) :
    (decide cfg e).pulls = 1 ∧
    (decide cfg e).backoff = (cfg.next cfg.backoff).2 ∧
    ((decide cfg e).verdict, (decide cfg e).notified) =
      (match cfg.adjust e (cfg.next cfg.backoff).1 with
       | some d => (ControlFlow.Continue d, [(e, d)])
       | none => (ControlFlow.Break (), [])) := by
  cases ha : cfg.adjust e (cfg.next cfg.backoff).1 <;> simp [decide, h, ha]

/-- Witness for C2 at a concrete configuration and error. -/
theorem decide_predicate_accepts_w :
    (decide cfgDefault 3).pulls = 1 ∧
    (decide cfgDefault 3).backoff = (cfgDefault.next cfgDefault.backoff).2 ∧
    ((decide cfgDefault 3).verdict, (decide cfgDefault 3).notified) =
      (match cfgDefault.adjust 3 (cfgDefault.next cfgDefault.backoff).1 with
       | some d => (ControlFlow.Continue d, [(3, d)])
       | none => (ControlFlow.Break (), [])) :=
  decide_predicate_accepts cfgDefault 3 rfl

/-- C3: with the predicate accepting and the backoff yielding `some d`,
an adjust result of `none` forces `Break` (Stop) anyway, and an adjust
result of `some d'` makes `d'` — not the backoff's candidate — the delay
carried by `Continue` and passed to `notify`. -/
theorem decide_adjust_overrides {σ E : Type} (cfg : RetryConfig σ E) (e : E)
    (d : Duration) (h : cfg.retryable e = true)
    (hb : (cfg.next cfg.backoff).1 = some d) :
    (cfg.adjust e (some d) = none → (decide cfg e).verdict = ControlFlow.Break ()) ∧
    (∀ d', cfg.adjust e (some d) = some d' →
      (decide cfg e).verdict = ControlFlow.Continue d' ∧
      (decide cfg e).notified = [(e, d')]) := by
  constructor
  · intro ha
    simp [decide, h, hb, ha]
  · intro d' ha
    simp [decide, h, hb, ha]

/-- Witness for C3: a suppressing adjust hook stops even though the
backoff yielded a delay. -/
theorem decide_adjust_overrides_w :
    (decide cfgSuppress 0).verdict = ControlFlow.Break () :=
  (decide_adjust_overrides cfgSuppress 0 5 rfl rfl).1 rfl

/-- C4: `notify` is invoked exactly once, with the call's error and the
delay carried by `Continue`, on every `decide` call that continues, and
never on a `decide` call that stops. -/
theorem decide_notify_iff_continue {σ E : Type} (cfg : RetryConfig σ E) (e : E) :
    (decide cfg e).notified =
      (match (decide cfg e).verdict with
       | ControlFlow.Continue d => [(e, d)]
       | ControlFlow.Break _ => []) := by
  cases h : cfg.retryable e
  · simp [decide, h]
  · cases ha : cfg.adjust e (cfg.next cfg.backoff).1 <;> simp [decide, h, ha]

/-- C5 counterexample: exhausted backoff and accepting predicate do not
force Stop when the adjust hook synthesizes a delay from the absent
candidate — `decide` continues with the synthesized delay. -/
theorem decide_exhausted_not_stop_cex :
    cfgSynthesize.retryable 0 = true ∧
    (cfgSynthesize.next cfgSynthesize.backoff).1 = none ∧
    (decide cfgSynthesize 0).verdict ≠ ControlFlow.Break () := by
  refine ⟨rfl, rfl, ?_⟩
  simp [decide, cfgSynthesize, always_retry, listNext]

/-- C5 amended: when the backoff source is exhausted, the predicate
accepts the error, and the adjust hook maps the absent candidate to
`none` (as the default identity hook does), `decide` returns `Break`
(Stop) and the driver surfaces the last operation error unchanged —
exhaustion is not a distinct error kind. -/
theorem decide_exhausted_stop {σ E A : Type} (cfg : RetryConfig σ E) (e : E)
    (h : cfg.retryable e = true) (hb : (cfg.next cfg.backoff).1 = none)
    (ha : cfg.adjust e none = none) (rest : List (Except E A)) :
    (decide cfg e).verdict = ControlFlow.Break () ∧
    runDriver cfg (Except.error e :: rest) [] = some (Except.error e, []) := by
  have hv : (decide cfg e).verdict = ControlFlow.Break () := by
    simp [decide, h, hb, ha]
  refine ⟨hv, ?_⟩
  simp only [runDriver]
  rw [hv]

/-- Witness for the amended C5 at the default hooks. -/
theorem decide_exhausted_stop_w :
    (decide cfgExhausted 9).verdict = ControlFlow.Break () ∧
    runDriver cfgExhausted [(Except.error 9 : Except Nat Nat)] [] =
      some (Except.error 9, []) :=
  @decide_exhausted_stop (List Duration) Nat Nat cfgExhausted 9 rfl rfl rfl []

/-- C6: the default hooks — `always_retry` accepts every error,
`noop_notify` has no effect, and `identity_adjust` passes the optional
candidate delay through unchanged. -/
theorem default_hooks_behavior {E : Type} (e : E) (d : Duration)
    (od : Option Duration) :
    always_retry e = true ∧ noop_notify e d = () ∧ identity_adjust e od = od :=
  ⟨rfl, rfl, rfl⟩

/-- C9: a `decide` call pulls exactly one delay from the backoff source
when the predicate accepts — also when the verdict is Stop because the
adjust hook returned `none` — and pulls none when the predicate
rejects. -/
theorem decide_pull_count {σ E : Type} (cfg : RetryConfig σ E) (e : E) :
    (decide cfg e).pulls = (if cfg.retryable e then 1 else 0) := by
  cases h : cfg.retryable e
  · simp [decide, h]
  · cases ha : cfg.adjust e (cfg.next cfg.backoff).1 <;> simp [decide, h, ha]

/-! Embedding of the `#[backon]` attribute's definition-time decision
logic from `src/backon-macros/src/lib.rs`. Only acceptance/rejection is
at stake in the claims; in the source, once all checks pass, token
generation (`build_simple_chain` / `build_with_context_chain`) returns
`Ok` unconditionally, so success is modelled as `Except.ok ()`. -/

/-- A parameter pattern (`syn::Pat`): a plain identifier, or any other
(destructuring) pattern. -/
inductive Pat where
  | ident : String → Pat
  | other : Pat
  deriving DecidableEq, Repr

/-- A method receiver (`syn::Receiver`): whether `&` is present
(`reference`), whether `mut` is present (`mutability`), and whether an
explicit `self: Ty` type annotation is present (`colon_token`). -/
structure Receiver where
  reference : Bool
  mutability : Bool
  colon_token : Bool
  deriving DecidableEq, Repr

/-- `syn::FnArg`: a receiver or a typed pattern. -/
inductive FnArg where
  | Receiver : Receiver → FnArg
  | Typed : Pat → FnArg
  deriving DecidableEq, Repr

/-- The slice of `syn::Signature` the macro's checks inspect: whether
the function is `async` (`asyncness`) and its inputs. -/
structure Signature where
  asyncness : Bool
  inputs : List FnArg
  deriving DecidableEq, Repr

/-- The parsed `#[backon(...)]` arguments (`struct BackonArgs`); the
five paths are modelled only by their presence. -/
structure BackonArgs where
  backoff : Option String
  sleep : Option String
  whenArg : Option String
  notify : Option String
  adjust : Option String
  context : Bool
  deriving DecidableEq, Repr

/-- The definition-time rejections of the macro, one constructor per
distinct `Error::new(...)` message in the source. -/
inductive MacroError where
  /-- "`#[backon]` does not yet support methods taking `&mut self`; ..." -/
  | mut_self_unsupported
  /-- "`#[backon]` does not support methods that take ownership of `self`; ..." -/
  | owned_self_unsupported
  /-- "`context = true` is not supported for methods taking `&self`" -/
  | context_on_ref_self
  /-- "parameters must bind to identifiers" -/
  | non_ident_param
  /-- "`adjust` is only available for async functions" -/
  | adjust_non_async
  /-- "`context = true` does not support methods that take ownership of `self`" -/
  | context_owned_self
  /-- "`#[backon]` currently supports only `&self` and `&mut self` receivers" -/
  | receiver_colon_unsupported
  /-- "`context = true` requires arguments to bind to identifiers" -/
  | context_non_ident_param
  /-- "failed to determine method receiver" -/
  | no_receiver_found
  deriving DecidableEq, Repr

/-- Loop body of `collect_arg_idents` (lines 270–286): receivers are
skipped, identifier patterns are collected in order, and any other
pattern is rejected. -/
def collect_arg_idents_go : List FnArg → Except MacroError (List String)
  | [] => Except.ok []
  | FnArg.Receiver _ :: rest => collect_arg_idents_go rest
  | FnArg.Typed p :: rest =>
    match p with
    | Pat.ident name => (collect_arg_idents_go rest).map (fun out => name :: out)
    | Pat.other => Except.error MacroError.non_ident_param

/-- `collect_arg_idents` from `src/backon-macros/src/lib.rs`. -/
def collect_arg_idents (sig : Signature) : Except MacroError (List String) :=
  collect_arg_idents_go sig.inputs

/-- Loop body of `prepare_context` (lines 351–448); only the checks that
can reject are modelled, the built `ContextInfo` pieces always succeed. -/
def prepare_context_go (include_receiver : Bool) : List FnArg → Except MacroError Unit
  | [] => Except.ok ()
  | FnArg.Receiver r :: rest =>
    if !include_receiver then prepare_context_go include_receiver rest
    else if !r.reference then Except.error MacroError.context_owned_self
    else if r.colon_token then Except.error MacroError.receiver_colon_unsupported
    else prepare_context_go include_receiver rest
  | FnArg.Typed p :: rest =>
    match p with
    | Pat.ident _ => prepare_context_go include_receiver rest
    | Pat.other => Except.error MacroError.context_non_ident_param

/-- `prepare_context` from `src/backon-macros/src/lib.rs`. -/
def prepare_context (sig : Signature) (include_receiver : Bool) :
    Except MacroError Unit :=
  prepare_context_go include_receiver sig.inputs

/-- `build_function_body` (lines 288–332): rejects `adjust` on a
non-async signature, then prepares a context when one is requested
(`precomputed_context` — always absent at the call sites in this crate —
is modelled by its presence); chain generation itself never fails. -/
def build_function_body (args : BackonArgs) (sig : Signature)
    (precomputed_context : Bool) (force_context include_receiver : Bool) :
    Except MacroError Unit :=
  let is_async := sig.asyncness
  if args.adjust.isSome && !is_async then
    Except.error MacroError.adjust_non_async
  else if precomputed_context then
    Except.ok ()
  else if force_context || args.context then
    prepare_context sig include_receiver
  else
    Except.ok ()

/-- `Signature::receiver().is_some()` / `matches!(inputs.first(), Some(FnArg::Receiver(_)))`. -/
def has_receiver (sig : Signature) : Bool :=
  match sig.inputs.head? with
  | some (FnArg.Receiver _) => true
  | _ => false

/-- `expand_method` (lines 114–187): receiver-less methods are expanded
like free functions; `&mut self` (and `mut self`) receivers, owned
`self` receivers, and `context = true` on `&self` methods are rejected;
otherwise the arguments must collect to identifiers and the wrapper body
is built with the same flags as a free function. -/
def expand_method (args : BackonArgs) (sig : Signature) : Except MacroError Unit :=
  if !(has_receiver sig) then
    build_function_body args sig false false false
  else
    match sig.inputs.head? with
    | some (FnArg.Receiver receiver) =>
      if receiver.mutability then
        Except.error MacroError.mut_self_unsupported
      else if !receiver.reference then
        Except.error MacroError.owned_self_unsupported
      else if args.context then
        Except.error MacroError.context_on_ref_self
      else
        match collect_arg_idents sig with
        | Except.error e => Except.error e
        | Except.ok _ => build_function_body args sig false false false
    | _ => Except.error MacroError.no_receiver_found

/-- The annotated item: a free function (`ItemFn`) or an inherent method
(`ImplItemFn`), reduced to the signature fields the checks read. -/
inductive InputItem where
  | ItemFn : Signature → InputItem
  | Method : Signature → InputItem
  deriving DecidableEq, Repr

/-- The signature of either input form. -/
def sigOf : InputItem → Signature
  | InputItem.ItemFn sig => sig
  | InputItem.Method sig => sig

/-- `expand_backon` (lines 88–112): an item that parses as a free
function but carries a receiver is re-dispatched to `expand_method`;
receiver-less free functions go straight to `build_function_body` with
no precomputed context, no forced context, and no receiver inclusion. -/
def expand_backon (args : BackonArgs) (input : InputItem) : Except MacroError Unit :=
  match input with
  | InputItem.ItemFn sig =>
    if has_receiver sig then expand_method args sig
    else build_function_body args sig false false false
  | InputItem.Method sig => expand_method args sig

/-- Dispatch in `expand_backon` always lands in `expand_method`'s logic:
a receiver-carrying `ItemFn` is re-dispatched, and the receiver-less
free-function path coincides with `expand_method`'s receiver-less path. -/
theorem expand_backon_eq_method (args : BackonArgs) (input : InputItem) :
    expand_backon args input = expand_method args (sigOf input) := by
  cases input with
  | ItemFn sig =>
    cases h : has_receiver sig with
    | false => simp [expand_backon, expand_method, sigOf, h]
    | true => simp [expand_backon, sigOf, h]
  | Method sig => rfl

/-- `build_function_body` rejects a supplied `adjust` on any non-async
signature, whatever the context flags are. -/
theorem build_function_body_adjust_sync (args : BackonArgs) (sig : Signature)
    (pc fc ir : Bool) (h1 : args.adjust.isSome = true) (h2 : sig.asyncness = false) :
    build_function_body args sig pc fc ir = Except.error MacroError.adjust_non_async := by
  simp [build_function_body, h1, h2]

/-- `expand_method` never succeeds when `adjust` is supplied on a
non-async signature: every path either rejects earlier or reaches
`build_function_body`, which rejects. -/
theorem expand_method_adjust_sync (args : BackonArgs) (sig : Signature)
    (h1 : args.adjust.isSome = true) (h2 : sig.asyncness = false) :
    expand_method args sig ≠ Except.ok () := by
  have hb : ∀ pc fc ir, build_function_body args sig pc fc ir =
      Except.error MacroError.adjust_non_async :=
    fun pc fc ir => build_function_body_adjust_sync args sig pc fc ir h1 h2
  unfold expand_method
  split
  · rw [hb]
    exact fun h => Except.noConfusion h
  · split
    · split
      · exact fun h => Except.noConfusion h
      · split
        · exact fun h => Except.noConfusion h
        · split
          · exact fun h => Except.noConfusion h
          · split
            · exact fun h => Except.noConfusion h
            · rw [hb]
              exact fun h => Except.noConfusion h
    · exact fun h => Except.noConfusion h

/-- A signature whose first input is a receiver has `has_receiver`. -/
theorem has_receiver_of_head (sig : Signature) (r : Receiver)
    (hh : sig.inputs.head? = some (FnArg.Receiver r)) :
    has_receiver sig = true := by
  simp [has_receiver, hh]

/-- On a signature whose first input is a receiver, `expand_method`
reduces to the receiver checks followed by argument collection. -/
theorem expand_method_receiver_case (args : BackonArgs) (sig : Signature)
    (r : Receiver) (hh : sig.inputs.head? = some (FnArg.Receiver r)) :
    expand_method args sig =
      (if r.mutability then Except.error MacroError.mut_self_unsupported
       else if !r.reference then Except.error MacroError.owned_self_unsupported
       else if args.context then Except.error MacroError.context_on_ref_self
       else match collect_arg_idents sig with
         | Except.error e => Except.error e
         | Except.ok _ => build_function_body args sig false false false) := by
  have hrecv := has_receiver_of_head sig r hh
  unfold expand_method
  rw [hrecv, hh]
  simp

/-- `collect_arg_idents_go` rejects any input list containing a
non-identifier parameter pattern. -/
theorem collect_arg_idents_go_other {l : List FnArg}
    (h : FnArg.Typed Pat.other ∈ l) :
    collect_arg_idents_go l = Except.error MacroError.non_ident_param := by
  induction l with
  | nil => cases h
  | cons a rest ih =>
    cases a with
    | Receiver r =>
      have hr : FnArg.Typed Pat.other ∈ rest := by
        cases h with
        | tail _ hr => exact hr
      simp only [collect_arg_idents_go]
      exact ih hr
    | Typed p =>
      cases p with
      | ident n =>
        have hr : FnArg.Typed Pat.other ∈ rest := by
          cases h with
          | tail _ hr => exact hr
        simp only [collect_arg_idents_go, ih hr]
        rfl
      | other => rfl

/-- With the receiver excluded (as at every call site in the crate),
`prepare_context_go` rejects any input list containing a non-identifier
parameter pattern. -/
theorem prepare_context_go_other {l : List FnArg}
    (h : FnArg.Typed Pat.other ∈ l) :
    prepare_context_go false l = Except.error MacroError.context_non_ident_param := by
  induction l with
  | nil => cases h
  | cons a rest ih =>
    cases a with
    | Receiver r =>
      have hr : FnArg.Typed Pat.other ∈ rest := by
        cases h with
        | tail _ hr => exact hr
      simp only [prepare_context_go, Bool.not_false, if_true]
      exact ih hr
    | Typed p =>
      cases p with
      | ident n =>
        have hr : FnArg.Typed Pat.other ∈ rest := by
          cases h with
          | tail _ hr => exact hr
        simp only [prepare_context_go]
        exact ih hr
      | other => rfl

/-- `#[backon(...)]` arguments with none of the five paths and no
context request. -/
def argsNone : BackonArgs :=
  { backoff := none, sleep := none, whenArg := none, notify := none,
    adjust := none, context := false }

/-- `#[backon(adjust = ...)]` arguments. -/
def argsAdjust : BackonArgs :=
  { backoff := none, sleep := none, whenArg := none, notify := none,
    adjust := some "fix_delay", context := false }

/-- `#[backon(context = true)]` arguments. -/
def argsContext : BackonArgs :=
  { backoff := none, sleep := none, whenArg := none, notify := none,
    adjust := none, context := true }

/-- C7: the transformation rejects at definition time (an error instead
of generated code) every operation that supplies an `adjust` hook but is
not async. -/
theorem adjust_non_async_rejected (args : BackonArgs) (input : InputItem)
    (h1 : args.adjust.isSome = true) (h2 : (sigOf input).asyncness = false) :
    expand_backon args input ≠ Except.ok () := by
  rw [expand_backon_eq_method]
  exact expand_method_adjust_sync args (sigOf input) h1 h2

/-- Witness for C7: `adjust` on a synchronous free function is rejected. -/
theorem adjust_non_async_rejected_w :
    expand_backon argsAdjust (InputItem.ItemFn { asyncness := false, inputs := [] }) ≠
      Except.ok () :=
  adjust_non_async_rejected argsAdjust
    (InputItem.ItemFn { asyncness := false, inputs := [] }) rfl rfl

/-- C8 counterexample: a free function with a destructuring
(non-identifier) parameter, no context threading requested, expands
successfully — it is not rejected. -/
theorem non_ident_param_accepted_cex :
    expand_backon argsNone
      (InputItem.ItemFn { asyncness := false, inputs := [FnArg.Typed Pat.other] }) =
      Except.ok () := rfl

/-- C8 amended: a non-identifier parameter is rejected at definition
time whenever the operation is a method with a receiver or whenever
context threading is requested (a receiver-less operation without
context accepts destructured parameters); and every operation whose
receiver is taken by ownership — in particular a context-threaded one —
is rejected. -/
theorem definition_time_shape_rejections (args : BackonArgs) (input : InputItem) :
    (has_receiver (sigOf input) = true →
      FnArg.Typed Pat.other ∈ (sigOf input).inputs →
      expand_backon args input ≠ Except.ok ()) ∧
    (args.context = true →
      FnArg.Typed Pat.other ∈ (sigOf input).inputs →
      expand_backon args input ≠ Except.ok ()) ∧
    (∀ r : Receiver, (sigOf input).inputs.head? = some (FnArg.Receiver r) →
      r.reference = false → expand_backon args input ≠ Except.ok ()) := by
  refine ⟨?_, ?_, ?_⟩
  · intro hrecv hp
    rw [expand_backon_eq_method]
    obtain ⟨r, hh⟩ : ∃ r, (sigOf input).inputs.head? = some (FnArg.Receiver r) := by
      unfold has_receiver at hrecv
      cases hh : (sigOf input).inputs.head? with
      | none => simp [hh] at hrecv
      | some a =>
        cases a with
        | Receiver r => exact ⟨r, rfl⟩
        | Typed p => simp [hh] at hrecv
    rw [expand_method_receiver_case args (sigOf input) r hh]
    have hc : collect_arg_idents (sigOf input) =
        Except.error MacroError.non_ident_param := collect_arg_idents_go_other hp
    rw [hc]
    cases hmut : r.mutability <;> cases href : r.reference <;>
      cases hctx : args.context <;> simp
  · intro hctx hp
    rw [expand_backon_eq_method]
    cases hrecv : has_receiver (sigOf input) with
    | false =>
      have hpc : prepare_context (sigOf input) false =
          Except.error MacroError.context_non_ident_param :=
        prepare_context_go_other hp
      simp only [expand_method, hrecv, Bool.not_false, if_true]
      cases hadj : (args.adjust.isSome && !(sigOf input).asyncness) with
      | true => simp [build_function_body, hadj]
      | false => simp [build_function_body, hadj, hctx, hpc]
    | true =>
      obtain ⟨r, hh⟩ : ∃ r, (sigOf input).inputs.head? = some (FnArg.Receiver r) := by
        unfold has_receiver at hrecv
        cases hh : (sigOf input).inputs.head? with
        | none => simp [hh] at hrecv
        | some a =>
          cases a with
          | Receiver r => exact ⟨r, rfl⟩
          | Typed p => simp [hh] at hrecv
      rw [expand_method_receiver_case args (sigOf input) r hh]
      cases hmut : r.mutability <;> cases href : r.reference <;> simp [hctx]
  · intro r hh href
    rw [expand_backon_eq_method]
    rw [expand_method_receiver_case args (sigOf input) r hh]
    cases hmut : r.mutability <;> simp [href]

/-- Witness for the amended C8: a `&self` method with a destructuring
parameter is rejected. -/
theorem definition_time_shape_rejections_w :
    expand_backon argsNone
      (InputItem.Method
        ⟨false, [FnArg.Receiver ⟨true, false, false⟩, FnArg.Typed Pat.other]⟩) ≠
      Except.ok () :=
  (definition_time_shape_rejections argsNone
    (InputItem.Method
      ⟨false, [FnArg.Receiver ⟨true, false, false⟩, FnArg.Typed Pat.other]⟩)).1
    rfl (by decide)

/-- C10: every method whose receiver is `&mut self` or owned `self` is
rejected at definition time whatever the flags are; a successful
expansion of a method with a receiver implies the receiver is `&self`
and no context threading was requested, and on `&self` methods
`context = true` is itself rejected. -/
theorem method_receiver_rules (args : BackonArgs) (input : InputItem)
    (r : Receiver) (hh : (sigOf input).inputs.head? = some (FnArg.Receiver r)) :
    ((r.mutability = true ∨ r.reference = false) →
      expand_backon args input ≠ Except.ok ()) ∧
    (args.context = true → expand_backon args input ≠ Except.ok ()) ∧
    (expand_backon args input = Except.ok () →
      r.mutability = false ∧ r.reference = true ∧ args.context = false) := by
  have hm := expand_method_receiver_case args (sigOf input) r hh
  rw [expand_backon_eq_method, hm]
  refine ⟨?_, ?_, ?_⟩
  · intro hbad
    cases hbad with
    | inl hmut => simp [hmut]
    | inr href => cases hmut : r.mutability <;> simp [hmut, href]
  · intro hctx
    cases hmut : r.mutability <;> cases href : r.reference <;> simp [hctx]
  · intro hok
    cases hmut : r.mutability with
    | true => rw [hmut] at hok; simp at hok
    | false =>
      cases href : r.reference with
      | false => rw [hmut, href] at hok; simp at hok
      | true =>
        cases hctx : args.context with
        | true => rw [hmut, href, hctx] at hok; simp at hok
        | false => exact ⟨rfl, rfl, rfl⟩

/-- Witness for C10: a `&mut self` method is rejected. -/
theorem method_receiver_rules_w :
    expand_backon argsNone
      (InputItem.Method ⟨true, [FnArg.Receiver ⟨true, true, false⟩]⟩) ≠
      Except.ok () :=
  (method_receiver_rules argsNone
    (InputItem.Method ⟨true, [FnArg.Receiver ⟨true, true, false⟩]⟩)
    ⟨true, true, false⟩ rfl).1 (Or.inl rfl)

end Backon
